import Mathlib

/-!
Verification of the named sub-pipeline registry and composition model of the
AggregateQueryBuilder class (src/aggregateQueryBuilder.ts).

The builder holds a main pipeline (a list of stage documents), a registry of
named sub-pipelines (a string-keyed object mapping names to stage lists), and a
counter for default sub-pipeline names.  Stage documents are JSON-like mongoose
PipelineStage values; they are embedded here as the inductive type Doc, and each
stage-constructing method is translated into a function on an explicit Builder
state.  A JS object with string keys is embedded as an association list with
unique keys; object deletion removes the key, and property lookup returns none
for an absent key.
-/

set_option autoImplicit false

namespace AggQB

/-- JSON-like documents: the shape of mongoose PipelineStage values built by the
class (string keys, arrays, numbers, strings, null). -/
inductive Doc where
  | null : Doc
  | bool : Bool → Doc
  | int : Int → Doc
  | str : String → Doc
  | arr : List Doc → Doc
  | obj : List (String × Doc) → Doc

/-- The sub-pipeline registry: a JS object mapping names to stage lists,
embedded as an association list (keys unique in every reachable state). -/
abbrev Registry := List (String × List Doc)

/-- Property read on a JS object: value of the first matching key, none when
the key is absent. -/
def regFind? : Registry → String → Option (List Doc)
  | [], _ => none
  | p :: rest, n => if p.1 = n then some p.2 else regFind? rest n

/-- JS `delete obj[n]`: remove the key (all occurrences, which on unique-key
lists coincides with removing the single one). -/
def regErase : Registry → String → Registry
  | [], _ => []
  | p :: rest, n => if p.1 = n then regErase rest n else p :: regErase rest n

/-- The create-or-append write performed by addToPipeline: when the key is
absent an empty list is created first, then the stage is pushed. -/
def regPush : Registry → String → Doc → Registry
  | [], n, s => [(n, [s])]
  | p :: rest, n, s => if p.1 = n then (p.1, p.2 ++ [s]) :: rest else p :: regPush rest n s

/-- The mutable state of one AggregateQueryBuilder instance: the main pipeline,
the named sub-pipeline registry, and the default-name counter. -/
structure Builder where
  pipeline : List Doc
  subPipeline : Registry
  subPipelineCounter : Nat

/-- The state set up by the constructor. -/
def freshBuilder : Builder :=
  { pipeline := [], subPipeline := [], subPipelineCounter := 0 }

/-- External collaborators of lookup: refOf embeds
`model.schema.path(field)?.options?.ref` (none when the field declares no
reference) and collectionNameOf embeds
`mongoose.model(ref).collection.collectionName`. -/
structure ModelSchema where
  refOf : String → Option String
  collectionNameOf : String → String

/-- addToPipeline(stage, subPipelineName): a provided, JS-truthy (non-empty)
name routes the stage to the named registry entry, creating it first when
absent; otherwise the stage is pushed onto the main pipeline. -/
def addToPipeline (b : Builder) (stage : Doc) (subPipelineName : Option String) : Builder :=
  match subPipelineName with
  | some name =>
      if name = "" then { b with pipeline := b.pipeline ++ [stage] }
      else { b with subPipeline := regPush b.subPipeline name stage }
  | none => { b with pipeline := b.pipeline ++ [stage] }

/-- The stage document built by matchEqual. -/
def matchEqualStage (field : String) (value : Doc) : Doc :=
  Doc.obj [("$match", Doc.obj [(field, value)])]

/-- matchEqual(field, value, subPipelineName?). -/
def matchEqual (b : Builder) (field : String) (value : Doc)
    (subPipelineName : Option String) : Builder :=
  addToPipeline b (matchEqualStage field value) subPipelineName

/-- The stage document built by matchRange. -/
def matchRangeStage (field operator : String) (value : Doc) : Doc :=
  Doc.obj [("$match", Doc.obj [(field, Doc.obj [(operator, value)])])]

/-- matchRange(field, operator, value, subPipelineName?). -/
def matchRange (b : Builder) (field operator : String) (value : Doc)
    (subPipelineName : Option String) : Builder :=
  addToPipeline b (matchRangeStage field operator value) subPipelineName

/-- matchLessThan delegates to matchRange with operator $lt. -/
def matchLessThan (b : Builder) (field : String) (value : Doc)
    (subPipelineName : Option String) : Builder :=
  matchRange b field "$lt" value subPipelineName

/-- matchGreaterThan delegates to matchRange with operator $gt. -/
def matchGreaterThan (b : Builder) (field : String) (value : Doc)
    (subPipelineName : Option String) : Builder :=
  matchRange b field "$gt" value subPipelineName

/-- getAndRemoveSubPipeline(name): read the entry (null when absent); when
present (JS-truthy; an array, even empty, is truthy) delete the key and return
the stored list. -/
def getAndRemoveSubPipeline (b : Builder) (name : String) : Option (List Doc) × Builder :=
  match regFind? b.subPipeline name with
  | some sub => (some sub, { b with subPipeline := regErase b.subPipeline name })
  | none => (none, b)

/-- The $cond stage document built by matchIf: each consumed stage list is
wrapped in a $and conjunction. -/
def condStage (condition trueMatch falseMatch : List Doc) : Doc :=
  Doc.obj [("$match", Doc.obj [("$expr", Doc.obj [("$cond", Doc.obj
    [("if", Doc.obj [("$and", Doc.arr condition)]),
     ("then", Doc.obj [("$and", Doc.arr trueMatch)]),
     ("else", Doc.obj [("$and", Doc.arr falseMatch)])])])])]

/-- Outcome of matchIf: the thrown error message (if any) together with the
instance state after the call (a thrown JS Error leaves prior field mutations in
place). -/
structure MatchIfResult where
  thrown : Option String
  state : Builder

/-- matchIf(conditionPipelineName, trueMatchPipelineName, falseMatchPipelineName,
subPipelineName?): three get-and-remove reads in order, then either the throw
(when one of them returned null) or the $cond stage routed by addToPipeline. -/
def matchIf (b : Builder)
    (conditionPipelineName trueMatchPipelineName falseMatchPipelineName : String)
    (subPipelineName : Option String) : MatchIfResult :=
  let r1 := getAndRemoveSubPipeline b conditionPipelineName
  let r2 := getAndRemoveSubPipeline r1.2 trueMatchPipelineName
  let r3 := getAndRemoveSubPipeline r2.2 falseMatchPipelineName
  match r1.1, r2.1, r3.1 with
  | some condition, some trueMatch, some falseMatch =>
      { thrown := none,
        state := addToPipeline r3.2 (condStage condition trueMatch falseMatch) subPipelineName }
  | _, _, _ =>
      { thrown := some ("One or more sub-pipelines not found: " ++ conditionPipelineName
          ++ ", " ++ trueMatchPipelineName ++ ", " ++ falseMatchPipelineName),
        state := r3.2 }

/-- The $addFields/$switch stage document built by matchSwitch; cases are
(caseCondition, then) pairs, kept in order, with default null. -/
def switchStage (switchField : String) (cases : List (Doc × Doc)) : Doc :=
  Doc.obj [("$addFields", Doc.obj [(switchField, Doc.obj [("$switch", Doc.obj
    [("branches", Doc.arr (cases.map (fun c => Doc.obj [("case", c.1), ("then", c.2)]))),
     ("default", Doc.null)])])])]

/-- matchSwitch(switchField, cases, subPipelineName?). -/
def matchSwitch (b : Builder) (switchField : String) (cases : List (Doc × Doc))
    (subPipelineName : Option String) : Builder :=
  addToPipeline b (switchStage switchField cases) subPipelineName

/-- The $lookup stage document built by lookup for one field with a declared
relation: from is the referenced collection name, localField the field,
foreignField _id, and as the field name suffixed with Details. -/
def lookupStage (fromColl localField : String) : Doc :=
  Doc.obj [("$lookup", Doc.obj
    [("from", Doc.str fromColl), ("localField", Doc.str localField),
     ("foreignField", Doc.str "_id"),
     ("as", Doc.str (localField ++ "Details"))])]

/-- lookup(fields, subPipelineName?): for each field in order, a field whose
schema path declares a ref emits one $lookup stage routed by addToPipeline;
a field with no declared relation is skipped. -/
def lookup (m : ModelSchema) (b : Builder) (fields : List String)
    (subPipelineName : Option String) : Builder :=
  fields.foldl (fun acc field =>
    match m.refOf field with
    | some refName => addToPipeline acc (lookupStage (m.collectionNameOf refName) field) subPipelineName
    | none => acc) b

/-- The stages lookup emits for a field list, in field order: one $lookup stage
per field with a declared relation, nothing for the others. -/
def lookupStages (m : ModelSchema) : List String → List Doc
  | [] => []
  | field :: rest =>
      match m.refOf field with
      | some refName => lookupStage (m.collectionNameOf refName) field :: lookupStages m rest
      | none => lookupStages m rest

/-- The $unwind stage document built by unwind for one field. -/
def unwindStage (field : String) : Doc :=
  Doc.obj [("$unwind", Doc.str ("$" ++ field ++ "Details"))]

/-- unwind(fields, subPipelineName?): one $unwind stage per field, in order. -/
def unwind (b : Builder) (fields : List String) (subPipelineName : Option String) : Builder :=
  fields.foldl (fun acc field => addToPipeline acc (unwindStage field) subPipelineName) b

/-- group(groupConditions, subPipelineName?). -/
def group (b : Builder) (groupConditions : Doc) (subPipelineName : Option String) : Builder :=
  addToPipeline b (Doc.obj [("$group", groupConditions)]) subPipelineName

/-- project(fields, subPipelineName?). -/
def project (b : Builder) (fields : Doc) (subPipelineName : Option String) : Builder :=
  addToPipeline b (Doc.obj [("$project", fields)]) subPipelineName

/-- sort(sortConditions, subPipelineName?). -/
def sort (b : Builder) (sortConditions : Doc) (subPipelineName : Option String) : Builder :=
  addToPipeline b (Doc.obj [("$sort", sortConditions)]) subPipelineName

/-- skip(skipValue, subPipelineName?). -/
def skip (b : Builder) (skipValue : Int) (subPipelineName : Option String) : Builder :=
  addToPipeline b (Doc.obj [("$skip", Doc.int skipValue)]) subPipelineName

/-- limit(limitValue, subPipelineName?). -/
def limit (b : Builder) (limitValue : Int) (subPipelineName : Option String) : Builder :=
  addToPipeline b (Doc.obj [("$limit", Doc.int limitValue)]) subPipelineName

/-- facet(facets, subPipelineName?). -/
def facet (b : Builder) (facets : Doc) (subPipelineName : Option String) : Builder :=
  addToPipeline b (Doc.obj [("$facet", facets)]) subPipelineName

/-- appendSubPipeline(name): when the entry exists (JS-truthy), push its stages
onto the main pipeline in stored order and delete the key; otherwise no-op. -/
def appendSubPipeline (b : Builder) (name : String) : Builder :=
  match regFind? b.subPipeline name with
  | some sub =>
      { b with pipeline := b.pipeline ++ sub, subPipeline := regErase b.subPipeline name }
  | none => b

/-- build(): return the main pipeline. -/
def build (b : Builder) : List Doc :=
  b.pipeline

/-- generateDefaultSubPipelineName(): pre-increment the counter and return the
literal prefix followed by the new counter value.  No method of the class ever
calls this helper. -/
def generateDefaultSubPipelineName (b : Builder) : String × Builder :=
  ("subPipeline_" ++ toString (b.subPipelineCounter + 1),
   { b with subPipelineCounter := b.subPipelineCounter + 1 })

/-- One call on the public surface of the builder, with its arguments. -/
inductive Op where
  | matchEqual (field : String) (value : Doc) (subPipelineName : Option String)
  | matchRange (field operator : String) (value : Doc) (subPipelineName : Option String)
  | matchLessThan (field : String) (value : Doc) (subPipelineName : Option String)
  | matchGreaterThan (field : String) (value : Doc) (subPipelineName : Option String)
  | matchIf (conditionPipelineName trueMatchPipelineName falseMatchPipelineName : String)
      (subPipelineName : Option String)
  | matchSwitch (switchField : String) (cases : List (Doc × Doc)) (subPipelineName : Option String)
  | lookup (fields : List String) (subPipelineName : Option String)
  | unwind (fields : List String) (subPipelineName : Option String)
  | group (groupConditions : Doc) (subPipelineName : Option String)
  | project (fields : Doc) (subPipelineName : Option String)
  | sort (sortConditions : Doc) (subPipelineName : Option String)
  | skip (skipValue : Int) (subPipelineName : Option String)
  | limit (limitValue : Int) (subPipelineName : Option String)
  | facet (facets : Doc) (subPipelineName : Option String)
  | appendSubPipeline (name : String)
  | getAndRemoveSubPipeline (name : String)

/-- The state transition of one public call.  For matchIf the instance state
after the call is taken whether or not the call threw, since a thrown JS Error
leaves the already-performed field mutations in place. -/
def applyOp (m : ModelSchema) (b : Builder) : Op → Builder
  | .matchEqual field value n => matchEqual b field value n
  | .matchRange field operator value n => matchRange b field operator value n
  | .matchLessThan field value n => matchLessThan b field value n
  | .matchGreaterThan field value n => matchGreaterThan b field value n
  | .matchIf c t f n => (matchIf b c t f n).state
  | .matchSwitch sf cases n => matchSwitch b sf cases n
  | .lookup fields n => lookup m b fields n
  | .unwind fields n => unwind b fields n
  | .group g n => group b g n
  | .project fs n => project b fs n
  | .sort s n => sort b s n
  | .skip v n => skip b v n
  | .limit v n => limit b v n
  | .facet fs n => facet b fs n
  | .appendSubPipeline name => appendSubPipeline b name
  | .getAndRemoveSubPipeline name => (getAndRemoveSubPipeline b name).2

/-- Run a sequence of public calls from a given state. -/
def runOps (m : ModelSchema) (b : Builder) (ops : List Op) : Builder :=
  ops.foldl (applyOp m) b

/-! Registry lemmas. -/

theorem regFind?_erase_self (r : Registry) (n : String) :
    regFind? (regErase r n) n = none := by
  induction r with
  | nil => rfl
  | cons p rest ih =>
      by_cases h : p.1 = n
      · simpa [regErase, h] using ih
      · simp [regErase, regFind?, h, ih]

theorem regFind?_erase_ne (r : Registry) (n m : String) (h : m ≠ n) :
    regFind? (regErase r n) m = regFind? r m := by
  induction r with
  | nil => rfl
  | cons p rest ih =>
      by_cases hp : p.1 = n
      · have : ¬ p.1 = m := by
          intro hm
          exact h (hm ▸ hp)
        simp [regErase, regFind?, hp, this, ih, Ne.symm h]
      · by_cases hm : p.1 = m
        · simp [regErase, regFind?, hp, hm, h]
        · simp [regErase, regFind?, hp, hm, ih]

theorem regErase_of_find?_none (r : Registry) (n : String)
    (h : regFind? r n = none) : regErase r n = r := by
  induction r with
  | nil => rfl
  | cons p rest ih =>
      by_cases hp : p.1 = n
      · simp [regFind?, hp] at h
      · simp [regFind?, hp] at h
        simp [regErase, hp, ih h]

theorem regFind?_of_erase_some (r : Registry) (n m : String) (l : List Doc)
    (h : regFind? (regErase r n) m = some l) : regFind? r m = some l := by
  by_cases hm : m = n
  · rw [hm, regFind?_erase_self] at h
    exact absurd h (by simp)
  · rwa [regFind?_erase_ne r n m hm] at h

theorem regFind?_push_self (r : Registry) (n : String) (s : Doc) :
    regFind? (regPush r n s) n = some ((regFind? r n).getD [] ++ [s]) := by
  induction r with
  | nil => simp [regPush, regFind?]
  | cons p rest ih =>
      by_cases hp : p.1 = n
      · simp [regPush, regFind?, hp]
      · simp [regPush, regFind?, hp, ih]

theorem regFind?_push_ne (r : Registry) (n m : String) (s : Doc) (h : m ≠ n) :
    regFind? (regPush r n s) m = regFind? r m := by
  induction r with
  | nil => simp [regPush, regFind?, Ne.symm h]
  | cons p rest ih =>
      by_cases hp : p.1 = n
      · have : ¬ p.1 = m := by
          intro hm
          exact h (hm ▸ hp)
        simp [regPush, regFind?, hp, this, Ne.symm h]
      · by_cases hm : p.1 = m
        · simp [regPush, regFind?, hp, hm, h]
        · simp [regPush, regFind?, hp, hm, ih]

/-! Characterizations of the two registry-consuming methods. -/

theorem getAndRemove_fst (b : Builder) (n : String) :
    (getAndRemoveSubPipeline b n).1 = regFind? b.subPipeline n := by
  unfold getAndRemoveSubPipeline
  cases h : regFind? b.subPipeline n <;> simp

theorem getAndRemove_snd (b : Builder) (n : String) :
    (getAndRemoveSubPipeline b n).2 = { b with subPipeline := regErase b.subPipeline n } := by
  unfold getAndRemoveSubPipeline
  cases h : regFind? b.subPipeline n with
  | none => simp [regErase_of_find?_none b.subPipeline n h]
  | some sub => simp

/-! Characterizations of stage routing. -/

theorem addToPipeline_none (b : Builder) (stage : Doc) :
    addToPipeline b stage none = { b with pipeline := b.pipeline ++ [stage] } := rfl

theorem addToPipeline_emptyName (b : Builder) (stage : Doc) :
    addToPipeline b stage (some "") = { b with pipeline := b.pipeline ++ [stage] } := by
  simp [addToPipeline]

theorem addToPipeline_named (b : Builder) (stage : Doc) (name : String) (h : name ≠ "") :
    addToPipeline b stage (some name) =
      { b with subPipeline := regPush b.subPipeline name stage } := by
  simp [addToPipeline, h]

theorem lookup_none (m : ModelSchema) (fields : List String) : ∀ b : Builder,
    lookup m b fields none = { b with pipeline := b.pipeline ++ lookupStages m fields } := by
  induction fields with
  | nil =>
      intro b
      simp [lookup, lookupStages]
  | cons field rest ih =>
      intro b
      cases h : m.refOf field with
      | none =>
          have h1 : lookup m b (field :: rest) none = lookup m b rest none := by
            simp [lookup, List.foldl, h]
          rw [h1, ih]
          simp [lookupStages, h]
      | some refName =>
          have h1 : lookup m b (field :: rest) none =
              lookup m (addToPipeline b (lookupStage (m.collectionNameOf refName) field) none)
                rest none := by
            simp [lookup, List.foldl, h]
          rw [h1, ih]
          simp [addToPipeline, lookupStages, h]

theorem unwind_none (fields : List String) : ∀ b : Builder,
    unwind b fields none = { b with pipeline := b.pipeline ++ fields.map unwindStage } := by
  induction fields with
  | nil =>
      intro b
      simp [unwind]
  | cons field rest ih =>
      intro b
      have h1 : unwind b (field :: rest) none =
          unwind (addToPipeline b (unwindStage field) none) rest none := by
        simp [unwind, List.foldl]
      rw [h1, ih]
      simp [addToPipeline]

/-- matchIf as one case split on the three sequential registry reads: each read
deletes the key it found, so the second and third reads see the partially
erased registry, and the thrown branch keeps those deletions. -/
theorem matchIf_eq (b : Builder) (c t f : String) (n? : Option String) :
    matchIf b c t f n? =
      match regFind? b.subPipeline c,
            regFind? (regErase b.subPipeline c) t,
            regFind? (regErase (regErase b.subPipeline c) t) f with
      | some lc, some lt, some lf =>
          { thrown := none,
            state := addToPipeline
              { b with subPipeline := regErase (regErase (regErase b.subPipeline c) t) f }
              (condStage lc lt lf) n? }
      | _, _, _ =>
          { thrown := some ("One or more sub-pipelines not found: " ++ c ++ ", " ++ t
              ++ ", " ++ f),
            state :=
              { b with subPipeline := regErase (regErase (regErase b.subPipeline c) t) f } } := by
  simp only [matchIf, getAndRemove_fst, getAndRemove_snd]

/-! The registry invariant: every stored entry is a non-empty stage list. -/

/-- Every entry of the registry holds a non-empty stage list. -/
def regGood (r : Registry) : Prop := ∀ p ∈ r, p.2 ≠ []

theorem regGood_erase (r : Registry) (n : String) (h : regGood r) :
    regGood (regErase r n) := by
  induction r with
  | nil =>
      intro p hp
      simp [regErase] at hp
  | cons q rest ih =>
      have htail : regGood rest := fun x hx => h x (List.mem_cons_of_mem q hx)
      intro p hp
      by_cases hq : q.1 = n
      · exact ih htail p (by simpa [regErase, hq] using hp)
      · rw [regErase] at hp
        simp only [hq, if_neg, ite_false] at hp
        rcases List.mem_cons.mp hp with hpq | hpr
        · exact hpq ▸ h q (List.mem_cons_self q rest)
        · exact ih htail p hpr

theorem regGood_push (r : Registry) (n : String) (s : Doc) (h : regGood r) :
    regGood (regPush r n s) := by
  induction r with
  | nil =>
      intro p hp
      simp [regPush] at hp
      simp [hp]
  | cons q rest ih =>
      have htail : regGood rest := fun x hx => h x (List.mem_cons_of_mem q hx)
      intro p hp
      by_cases hq : q.1 = n
      · rw [regPush] at hp
        simp only [hq, if_pos, ite_true] at hp
        rcases List.mem_cons.mp hp with hpq | hpr
        · simp [hpq]
        · exact htail p hpr
      · rw [regPush] at hp
        simp only [hq, if_neg, ite_false] at hp
        rcases List.mem_cons.mp hp with hpq | hpr
        · exact hpq ▸ h q (List.mem_cons_self q rest)
        · exact ih htail p hpr

theorem regGood_addToPipeline (b : Builder) (stage : Doc) (n? : Option String)
    (h : regGood b.subPipeline) : regGood (addToPipeline b stage n?).subPipeline := by
  cases n? with
  | none => simpa [addToPipeline] using h
  | some name =>
      by_cases hname : name = ""
      · simpa [addToPipeline, hname] using h
      · simpa [addToPipeline, hname] using regGood_push b.subPipeline name stage h

theorem regGood_lookup (m : ModelSchema) (fields : List String) (n? : Option String) :
    ∀ b : Builder, regGood b.subPipeline → regGood (lookup m b fields n?).subPipeline := by
  induction fields with
  | nil =>
      intro b h
      simpa [lookup] using h
  | cons field rest ih =>
      intro b h
      cases hf : m.refOf field with
      | none =>
          have h1 : lookup m b (field :: rest) n? = lookup m b rest n? := by
            simp [lookup, List.foldl, hf]
          rw [h1]
          exact ih b h
      | some refName =>
          have h1 : lookup m b (field :: rest) n? =
              lookup m (addToPipeline b (lookupStage (m.collectionNameOf refName) field) n?)
                rest n? := by
            simp [lookup, List.foldl, hf]
          rw [h1]
          exact ih _ (regGood_addToPipeline b _ n? h)

theorem regGood_unwind (fields : List String) (n? : Option String) :
    ∀ b : Builder, regGood b.subPipeline → regGood (unwind b fields n?).subPipeline := by
  induction fields with
  | nil =>
      intro b h
      simpa [unwind] using h
  | cons field rest ih =>
      intro b h
      have h1 : unwind b (field :: rest) n? =
          unwind (addToPipeline b (unwindStage field) n?) rest n? := by
        simp [unwind, List.foldl]
      rw [h1]
      exact ih _ (regGood_addToPipeline b _ n? h)

theorem regGood_matchIf (b : Builder) (c t f : String) (n? : Option String)
    (h : regGood b.subPipeline) : regGood (matchIf b c t f n?).state.subPipeline := by
  have he : regGood (regErase (regErase (regErase b.subPipeline c) t) f) :=
    regGood_erase _ f (regGood_erase _ t (regGood_erase _ c h))
  rw [matchIf_eq]
  cases h1 : regFind? b.subPipeline c <;>
    cases h2 : regFind? (regErase b.subPipeline c) t <;>
      cases h3 : regFind? (regErase (regErase b.subPipeline c) t) f <;>
        first
          | simpa using he
          | exact regGood_addToPipeline _ _ n? he

theorem regGood_applyOp (m : ModelSchema) (b : Builder) (op : Op)
    (h : regGood b.subPipeline) : regGood (applyOp m b op).subPipeline := by
  cases op with
  | matchEqual field value n => exact regGood_addToPipeline b _ n h
  | matchRange field operator value n => exact regGood_addToPipeline b _ n h
  | matchLessThan field value n => exact regGood_addToPipeline b _ n h
  | matchGreaterThan field value n => exact regGood_addToPipeline b _ n h
  | matchIf c t f n => exact regGood_matchIf b c t f n h
  | matchSwitch sf cases n => exact regGood_addToPipeline b _ n h
  | lookup fields n => exact regGood_lookup m fields n b h
  | unwind fields n => exact regGood_unwind fields n b h
  | group g n => exact regGood_addToPipeline b _ n h
  | project fs n => exact regGood_addToPipeline b _ n h
  | sort s n => exact regGood_addToPipeline b _ n h
  | skip v n => exact regGood_addToPipeline b _ n h
  | limit v n => exact regGood_addToPipeline b _ n h
  | facet fs n => exact regGood_addToPipeline b _ n h
  | appendSubPipeline name =>
      simp only [applyOp, appendSubPipeline]
      cases hf : regFind? b.subPipeline name with
      | none => exact h
      | some sub => exact regGood_erase _ name h
  | getAndRemoveSubPipeline name =>
      simp only [applyOp]
      rw [getAndRemove_snd]
      exact regGood_erase _ name h

theorem regGood_runOps (m : ModelSchema) (ops : List Op) :
    ∀ b : Builder, regGood b.subPipeline → regGood (runOps m b ops).subPipeline := by
  induction ops with
  | nil =>
      intro b h
      simpa [runOps] using h
  | cons op rest ih =>
      intro b h
      have h1 : runOps m b (op :: rest) = runOps m (applyOp m b op) rest := by
        simp [runOps, List.foldl]
      rw [h1]
      exact ih _ (regGood_applyOp m b op h)

theorem regFind?_mem (r : Registry) (n : String) (l : List Doc)
    (h : regFind? r n = some l) : (n, l) ∈ r := by
  induction r with
  | nil => simp [regFind?] at h
  | cons q rest ih =>
      by_cases hq : q.1 = n
      · rw [regFind?] at h
        simp only [hq, if_pos, ite_true, Option.some.injEq] at h
        have hBack : q = (n, l) := Prod.ext hq (h ▸ rfl)
        exact hBack ▸ List.mem_cons_self q rest
      · rw [regFind?] at h
        simp only [hq, if_neg, ite_false] at h
        exact List.mem_cons_of_mem q (ih h)

/-! The default-name counter is never touched by any public call. -/

theorem addToPipeline_counter (b : Builder) (stage : Doc) (n? : Option String) :
    (addToPipeline b stage n?).subPipelineCounter = b.subPipelineCounter := by
  cases n? with
  | none => rfl
  | some name => by_cases h : name = "" <;> simp [addToPipeline, h]

theorem lookup_counter (m : ModelSchema) (fields : List String) (n? : Option String) :
    ∀ b : Builder, (lookup m b fields n?).subPipelineCounter = b.subPipelineCounter := by
  induction fields with
  | nil => intro b; rfl
  | cons field rest ih =>
      intro b
      cases hf : m.refOf field with
      | none =>
          have h1 : lookup m b (field :: rest) n? = lookup m b rest n? := by
            simp [lookup, List.foldl, hf]
          rw [h1, ih]
      | some refName =>
          have h1 : lookup m b (field :: rest) n? =
              lookup m (addToPipeline b (lookupStage (m.collectionNameOf refName) field) n?)
                rest n? := by
            simp [lookup, List.foldl, hf]
          rw [h1, ih, addToPipeline_counter]

theorem unwind_counter (fields : List String) (n? : Option String) :
    ∀ b : Builder, (unwind b fields n?).subPipelineCounter = b.subPipelineCounter := by
  induction fields with
  | nil => intro b; rfl
  | cons field rest ih =>
      intro b
      have h1 : unwind b (field :: rest) n? =
          unwind (addToPipeline b (unwindStage field) n?) rest n? := by
        simp [unwind, List.foldl]
      rw [h1, ih, addToPipeline_counter]

theorem matchIf_counter (b : Builder) (c t f : String) (n? : Option String) :
    (matchIf b c t f n?).state.subPipelineCounter = b.subPipelineCounter := by
  rw [matchIf_eq]
  cases h1 : regFind? b.subPipeline c <;>
    cases h2 : regFind? (regErase b.subPipeline c) t <;>
      cases h3 : regFind? (regErase (regErase b.subPipeline c) t) f <;>
        simp [addToPipeline_counter]

theorem applyOp_counter (m : ModelSchema) (b : Builder) (op : Op) :
    (applyOp m b op).subPipelineCounter = b.subPipelineCounter := by
  cases op with
  | matchEqual field value n => exact addToPipeline_counter b _ n
  | matchRange field operator value n => exact addToPipeline_counter b _ n
  | matchLessThan field value n => exact addToPipeline_counter b _ n
  | matchGreaterThan field value n => exact addToPipeline_counter b _ n
  | matchIf c t f n => exact matchIf_counter b c t f n
  | matchSwitch sf cases n => exact addToPipeline_counter b _ n
  | lookup fields n => exact lookup_counter m fields n b
  | unwind fields n => exact unwind_counter fields n b
  | group g n => exact addToPipeline_counter b _ n
  | project fs n => exact addToPipeline_counter b _ n
  | sort s n => exact addToPipeline_counter b _ n
  | skip v n => exact addToPipeline_counter b _ n
  | limit v n => exact addToPipeline_counter b _ n
  | facet fs n => exact addToPipeline_counter b _ n
  | appendSubPipeline name =>
      simp only [applyOp, appendSubPipeline]
      cases hf : regFind? b.subPipeline name <;> simp
  | getAndRemoveSubPipeline name =>
      simp only [applyOp]
      rw [getAndRemove_snd]

theorem runOps_counter (m : ModelSchema) (ops : List Op) :
    ∀ b : Builder, (runOps m b ops).subPipelineCounter = b.subPipelineCounter := by
  induction ops with
  | nil => intro b; rfl
  | cons op rest ih =>
      intro b
      have h1 : runOps m b (op :: rest) = runOps m (applyOp m b op) rest := by
        simp [runOps, List.foldl]
      rw [h1, ih, applyOp_counter]

/-! Routing with the empty string as target name. -/

theorem lookup_emptyName (m : ModelSchema) (fields : List String) :
    ∀ b : Builder, lookup m b fields (some "") = lookup m b fields none := by
  induction fields with
  | nil => intro b; rfl
  | cons field rest ih =>
      intro b
      cases hf : m.refOf field with
      | none =>
          have h1 : lookup m b (field :: rest) (some "") = lookup m b rest (some "") := by
            simp [lookup, List.foldl, hf]
          have h2 : lookup m b (field :: rest) none = lookup m b rest none := by
            simp [lookup, List.foldl, hf]
          rw [h1, h2, ih]
      | some refName =>
          have h1 : lookup m b (field :: rest) (some "") =
              lookup m (addToPipeline b (lookupStage (m.collectionNameOf refName) field) (some ""))
                rest (some "") := by
            simp [lookup, List.foldl, hf]
          have h2 : lookup m b (field :: rest) none =
              lookup m (addToPipeline b (lookupStage (m.collectionNameOf refName) field) none)
                rest none := by
            simp [lookup, List.foldl, hf]
          rw [h1, h2, ih, addToPipeline_emptyName, addToPipeline_none]

theorem unwind_emptyName (fields : List String) :
    ∀ b : Builder, unwind b fields (some "") = unwind b fields none := by
  induction fields with
  | nil => intro b; rfl
  | cons field rest ih =>
      intro b
      have h1 : unwind b (field :: rest) (some "") =
          unwind (addToPipeline b (unwindStage field) (some "")) rest (some "") := by
        simp [unwind, List.foldl]
      have h2 : unwind b (field :: rest) none =
          unwind (addToPipeline b (unwindStage field) none) rest none := by
        simp [unwind, List.foldl]
      rw [h1, h2, ih, addToPipeline_emptyName, addToPipeline_none]

theorem matchIf_emptyName (b : Builder) (c t f : String) :
    matchIf b c t f (some "") = matchIf b c t f none := by
  rw [matchIf_eq, matchIf_eq]
  cases h1 : regFind? b.subPipeline c <;>
    cases h2 : regFind? (regErase b.subPipeline c) t <;>
      cases h3 : regFind? (regErase (regErase b.subPipeline c) t) f <;>
        simp [addToPipeline_emptyName, addToPipeline_none]

/-- The same public call with its optional routing-name argument replaced; the
two name-taking calls appendSubPipeline and getAndRemoveSubPipeline have a
mandatory name and are unaffected. -/
def Op.withName : Op → Option String → Op
  | .matchEqual field value _, n => .matchEqual field value n
  | .matchRange field operator value _, n => .matchRange field operator value n
  | .matchLessThan field value _, n => .matchLessThan field value n
  | .matchGreaterThan field value _, n => .matchGreaterThan field value n
  | .matchIf c t f _, n => .matchIf c t f n
  | .matchSwitch sf cases _, n => .matchSwitch sf cases n
  | .lookup fields _, n => .lookup fields n
  | .unwind fields _, n => .unwind fields n
  | .group g _, n => .group g n
  | .project fs _, n => .project fs n
  | .sort s _, n => .sort s n
  | .skip v _, n => .skip v n
  | .limit v _, n => .limit v n
  | .facet fs _, n => .facet fs n
  | .appendSubPipeline name, _ => .appendSubPipeline name
  | .getAndRemoveSubPipeline name, _ => .getAndRemoveSubPipeline name

/-! Plain stage-appending calls, used to state the append-order invariant. -/

/-- A stage-appending public call invoked with no target name: every
stage-producing method except matchIf (which additionally consumes registry
entries and can throw). -/
inductive AppendOp where
  | matchEqual (field : String) (value : Doc)
  | matchRange (field operator : String) (value : Doc)
  | matchLessThan (field : String) (value : Doc)
  | matchGreaterThan (field : String) (value : Doc)
  | matchSwitch (switchField : String) (cases : List (Doc × Doc))
  | lookup (fields : List String)
  | unwind (fields : List String)
  | group (groupConditions : Doc)
  | project (fields : Doc)
  | sort (sortConditions : Doc)
  | skip (skipValue : Int)
  | limit (limitValue : Int)
  | facet (facets : Doc)

/-- The corresponding public call, with no target name supplied. -/
def AppendOp.toOp : AppendOp → Op
  | .matchEqual field value => .matchEqual field value none
  | .matchRange field operator value => .matchRange field operator value none
  | .matchLessThan field value => .matchLessThan field value none
  | .matchGreaterThan field value => .matchGreaterThan field value none
  | .matchSwitch sf cases => .matchSwitch sf cases none
  | .lookup fields => .lookup fields none
  | .unwind fields => .unwind fields none
  | .group g => .group g none
  | .project fs => .project fs none
  | .sort s => .sort s none
  | .skip v => .skip v none
  | .limit v => .limit v none
  | .facet fs => .facet fs none

/-- The stage documents one such call constructs, in emission order. -/
def AppendOp.stages (m : ModelSchema) : AppendOp → List Doc
  | .matchEqual field value => [matchEqualStage field value]
  | .matchRange field operator value => [matchRangeStage field operator value]
  | .matchLessThan field value => [matchRangeStage field "$lt" value]
  | .matchGreaterThan field value => [matchRangeStage field "$gt" value]
  | .matchSwitch sf cases => [switchStage sf cases]
  | .lookup fields => lookupStages m fields
  | .unwind fields => fields.map unwindStage
  | .group g => [Doc.obj [("$group", g)]]
  | .project fs => [Doc.obj [("$project", fs)]]
  | .sort s => [Doc.obj [("$sort", s)]]
  | .skip v => [Doc.obj [("$skip", Doc.int v)]]
  | .limit v => [Doc.obj [("$limit", Doc.int v)]]
  | .facet fs => [Doc.obj [("$facet", fs)]]

/-- Concatenation, in call order, of the stages a list of such calls
constructs. -/
def stagesConcat (m : ModelSchema) : List AppendOp → List Doc
  | [] => []
  | a :: rest => AppendOp.stages m a ++ stagesConcat m rest

theorem applyOp_appendOp (m : ModelSchema) (a : AppendOp) (b : Builder) :
    applyOp m b a.toOp = { b with pipeline := b.pipeline ++ a.stages m } := by
  cases a with
  | lookup fields =>
      simp only [AppendOp.toOp, applyOp, AppendOp.stages]
      exact lookup_none m fields b
  | unwind fields =>
      simp only [AppendOp.toOp, applyOp, AppendOp.stages]
      exact unwind_none fields b
  | matchEqual field value => rfl
  | matchRange field operator value => rfl
  | matchLessThan field value => rfl
  | matchGreaterThan field value => rfl
  | matchSwitch sf cases => rfl
  | group g => rfl
  | project fs => rfl
  | sort s => rfl
  | skip v => rfl
  | limit v => rfl
  | facet fs => rfl

theorem runOps_appendOps (m : ModelSchema) (ops : List AppendOp) : ∀ b : Builder,
    runOps m b (ops.map AppendOp.toOp) = { b with pipeline := b.pipeline ++ stagesConcat m ops } := by
  induction ops with
  | nil =>
      intro b
      simp [runOps, stagesConcat]
  | cons a rest ih =>
      intro b
      have h1 : runOps m b ((a :: rest).map AppendOp.toOp) =
          runOps m (applyOp m b a.toOp) (rest.map AppendOp.toOp) := by
        simp [runOps, List.foldl]
      rw [h1, applyOp_appendOp, ih]
      simp [stagesConcat]

/-! Claims. -/

/-- Example state for C1: only the condition entry is present. -/
def c1Builder : Builder :=
  { pipeline := [], subPipeline := [("condSub", [Doc.null])], subPipelineCounter := 0 }

/-- C1 (amended): when at least one of the three named entries is absent from
the registry at call time, matchIf raises the MissingSubPipeline error and
leaves the Main Sequence unchanged (no partial stage emitted), but it does not
leave the registry unchanged: each of the three named entries that was present
has already been consumed (the registry ends up with all three keys erased). -/
theorem matchIf_missing_raises_and_consumes (b : Builder) (c t f : String) (n? : Option String)
    (h : regFind? b.subPipeline c = none ∨ regFind? b.subPipeline t = none ∨
      regFind? b.subPipeline f = none) :
    (matchIf b c t f n?).thrown =
      some ("One or more sub-pipelines not found: " ++ c ++ ", " ++ t ++ ", " ++ f) ∧
    (matchIf b c t f n?).state.pipeline = b.pipeline ∧
    (matchIf b c t f n?).state.subPipeline =
      regErase (regErase (regErase b.subPipeline c) t) f := by
  rw [matchIf_eq]
  cases h1 : regFind? b.subPipeline c with
  | none => simp
  | some lc =>
      cases h2 : regFind? (regErase b.subPipeline c) t with
      | none => simp
      | some lt =>
          cases h3 : regFind? (regErase (regErase b.subPipeline c) t) f with
          | none => simp
          | some lf =>
              exfalso
              have ht : regFind? b.subPipeline t = some lt :=
                regFind?_of_erase_some b.subPipeline c t lt h2
              have hf2 : regFind? b.subPipeline f = some lf :=
                regFind?_of_erase_some b.subPipeline c f lf
                  (regFind?_of_erase_some (regErase b.subPipeline c) t f lf h3)
              rcases h with h | h | h
              · rw [h] at h1
                exact Option.noConfusion h1
              · rw [h] at ht
                exact Option.noConfusion ht
              · rw [h] at hf2
                exact Option.noConfusion hf2

/-- C1 witness: a registry holding only the condition entry; the call throws,
the main pipeline stays empty, and the registry ends with all three keys
erased. -/
theorem matchIf_missing_raises_and_consumes_witness :
    (matchIf c1Builder "condSub" "thenSub" "elseSub" none).thrown =
      some ("One or more sub-pipelines not found: " ++ "condSub" ++ ", " ++ "thenSub"
        ++ ", " ++ "elseSub") ∧
    (matchIf c1Builder "condSub" "thenSub" "elseSub" none).state.pipeline =
      c1Builder.pipeline ∧
    (matchIf c1Builder "condSub" "thenSub" "elseSub" none).state.subPipeline =
      regErase (regErase (regErase c1Builder.subPipeline "condSub") "thenSub") "elseSub" :=
  matchIf_missing_raises_and_consumes c1Builder
    "condSub" "thenSub" "elseSub" none (Or.inr (Or.inl rfl))

/-- C1 counterexample: with only the condition entry present, matchIf throws
but the registry does not stay as it was — the present entry was consumed. -/
theorem matchIf_missing_registry_changed_counterexample :
    ((matchIf c1Builder "condSub" "thenSub" "elseSub" none).thrown.isSome = true) ∧
    (matchIf c1Builder "condSub" "thenSub" "elseSub" none).state.subPipeline ≠
      c1Builder.subPipeline := by
  constructor
  · rfl
  · have h : (matchIf c1Builder "condSub" "thenSub" "elseSub" none).state.subPipeline = [] := rfl
    rw [h]
    simp [c1Builder]

/-- C2: with three pairwise distinct names all present in the registry, matchIf
does not throw; it removes all three entries and routes exactly one stage whose
condition, then and else branches are the three consumed stage lists each
wrapped in an $and conjunction, appended by addToPipeline to the Main Sequence
when no target name is given, or to the named entry otherwise. -/
theorem matchIf_success_consumes_and_embeds (b : Builder) (c t f : String) (n? : Option String)
    (lc lt lf : List Doc) (hct : c ≠ t) (hcf : c ≠ f) (htf : t ≠ f)
    (hc : regFind? b.subPipeline c = some lc)
    (ht : regFind? b.subPipeline t = some lt)
    (hf : regFind? b.subPipeline f = some lf) :
    matchIf b c t f n? =
      { thrown := none,
        state := addToPipeline
          { b with subPipeline := regErase (regErase (regErase b.subPipeline c) t) f }
          (Doc.obj [("$match", Doc.obj [("$expr", Doc.obj [("$cond", Doc.obj
            [("if", Doc.obj [("$and", Doc.arr lc)]),
             ("then", Doc.obj [("$and", Doc.arr lt)]),
             ("else", Doc.obj [("$and", Doc.arr lf)])])])])]) n? } := by
  have h2 : regFind? (regErase b.subPipeline c) t = some lt := by
    rw [regFind?_erase_ne b.subPipeline c t (Ne.symm hct)]
    exact ht
  have h3 : regFind? (regErase (regErase b.subPipeline c) t) f = some lf := by
    rw [regFind?_erase_ne (regErase b.subPipeline c) t f (Ne.symm htf),
      regFind?_erase_ne b.subPipeline c f (Ne.symm hcf)]
    exact hf
  rw [matchIf_eq, hc, h2, h3]
  rfl

/-- Example state for C2: three distinct one-stage entries. -/
def c2Builder : Builder :=
  { pipeline := [],
    subPipeline := [("c1", [Doc.null]), ("t1", [Doc.bool true]), ("f1", [Doc.bool false])],
    subPipelineCounter := 0 }

/-- C2 witness: three distinct one-stage entries; the call consumes them and
appends the single $cond stage to the main pipeline. -/
theorem matchIf_success_consumes_and_embeds_witness :
    matchIf c2Builder "c1" "t1" "f1" none =
      { thrown := none,
        state := addToPipeline
          { c2Builder with
            subPipeline := regErase (regErase (regErase c2Builder.subPipeline "c1") "t1") "f1" }
          (Doc.obj [("$match", Doc.obj [("$expr", Doc.obj [("$cond", Doc.obj
            [("if", Doc.obj [("$and", Doc.arr [Doc.null])]),
             ("then", Doc.obj [("$and", Doc.arr [Doc.bool true])]),
             ("else", Doc.obj [("$and", Doc.arr [Doc.bool false])])])])])]) none } :=
  matchIf_success_consumes_and_embeds c2Builder
    "c1" "t1" "f1" none [Doc.null] [Doc.bool true] [Doc.bool false]
    (by decide) (by decide) (by decide) rfl rfl rfl

/-- The spec example run for C3: two equality matches routed to the named
entries ageFilter and cityFilter, then the conditional match reusing ageFilter
as both the condition name and the false-branch name. -/
def c3Run : MatchIfResult :=
  matchIf
    (matchEqual
      (matchEqual freshBuilder "age" (Doc.obj [("gte", Doc.int 30)]) (some "ageFilter"))
      "city" (Doc.str "New York") (some "cityFilter"))
    "ageFilter" "cityFilter" "ageFilter" none

/-- C3 counterexample: the example sequence does not succeed — the third
retrieve finds ageFilter already consumed, so matchIf throws, and no stage
reaches the Main Sequence. -/
theorem conditionalMatch_reuse_counterexample :
    c3Run.thrown.isSome = true ∧ c3Run.state.pipeline = [] :=
  ⟨rfl, rfl⟩

/-- C3 (amended): the example sequence raises the MissingSubPipeline error
naming the three requested keys (ageFilter was consumed by the first retrieve,
so the third finds it absent), emits no stage to the Main Sequence, and leaves
both ageFilter and cityFilter absent from the registry afterward. -/
theorem conditionalMatch_reuse_throws :
    c3Run.thrown =
      some ("One or more sub-pipelines not found: " ++ "ageFilter" ++ ", " ++ "cityFilter"
        ++ ", " ++ "ageFilter") ∧
    c3Run.state.pipeline = [] ∧
    regFind? c3Run.state.subPipeline "ageFilter" = none ∧
    regFind? c3Run.state.subPipeline "cityFilter" = none :=
  ⟨rfl, rfl, rfl, rfl⟩

/-- C4 counterexample: a stage-producing call with no explicit target name does
not synthesize a registry name — the stage goes to the Main Sequence, the
registry stays empty and the Default Name Counter is not consulted. -/
theorem noName_routes_to_main_counterexample :
    (matchEqual freshBuilder "status" (Doc.str "active") none).subPipeline = [] ∧
    (matchEqual freshBuilder "status" (Doc.str "active") none).subPipelineCounter = 0 ∧
    (matchEqual freshBuilder "status" (Doc.str "active") none).pipeline =
      [Doc.obj [("$match", Doc.obj [("status", Doc.str "active")])]] :=
  ⟨rfl, rfl, rfl⟩

/-- C4 (amended): a stage-producing call with no explicit target name appends
its stage to the Main Sequence and creates no registry entry; no public call
ever advances the Default Name Counter (generateDefaultSubPipelineName is dead
code), so trivially no synthesized name is produced twice; the generator
itself, were it called, would return the literal prefix subPipeline_ followed
by the pre-incremented counter value and bump the counter. -/
theorem defaultName_generator_unused (m : ModelSchema) (ops : List Op) (b : Builder)
    (stage : Doc) :
    addToPipeline b stage none = { b with pipeline := b.pipeline ++ [stage] } ∧
    (runOps m freshBuilder ops).subPipelineCounter = freshBuilder.subPipelineCounter ∧
    (generateDefaultSubPipelineName b).1 =
      "subPipeline_" ++ toString (b.subPipelineCounter + 1) ∧
    (generateDefaultSubPipelineName b).2.subPipelineCounter = b.subPipelineCounter + 1 :=
  ⟨rfl, runOps_counter m ops freshBuilder, rfl, rfl⟩

/-- C5: any sequence of stage-appending calls with no target name, run on a
fresh builder, makes build() return exactly the stages those calls constructed,
concatenated in call order — nothing added, dropped or reordered. -/
theorem build_append_order (m : ModelSchema) (ops : List AppendOp) :
    build (runOps m freshBuilder (ops.map AppendOp.toOp)) = stagesConcat m ops := by
  rw [runOps_appendOps m ops freshBuilder]
  simp [build, freshBuilder]

/-- C6: a stage-producing call with an explicit non-empty target name leaves
the Main Sequence completely unchanged and appends the stage to the named
registry entry, the entry being created empty first when absent. -/
theorem named_routing_frame (b : Builder) (stage : Doc) (name : String) (h : name ≠ "") :
    (addToPipeline b stage (some name)).pipeline = b.pipeline ∧
    regFind? (addToPipeline b stage (some name)).subPipeline name =
      some ((regFind? b.subPipeline name).getD [] ++ [stage]) := by
  rw [addToPipeline_named b stage name h]
  exact ⟨rfl, regFind?_push_self b.subPipeline name stage⟩

/-- C6 witness: routing one stage to the fresh name stash. -/
theorem named_routing_frame_witness :
    (addToPipeline freshBuilder Doc.null (some "stash")).pipeline = freshBuilder.pipeline ∧
    regFind? (addToPipeline freshBuilder Doc.null (some "stash")).subPipeline "stash" =
      some ((regFind? freshBuilder.subPipeline "stash").getD [] ++ [Doc.null]) :=
  named_routing_frame freshBuilder Doc.null "stash" (by decide)

theorem appendSubPipeline_none_id (b : Builder) (name : String)
    (h : regFind? b.subPipeline name = none) : appendSubPipeline b name = b := by
  simp [appendSubPipeline, h]

theorem appendSubPipeline_some (b : Builder) (name : String) (sub : List Doc)
    (h : regFind? b.subPipeline name = some sub) :
    appendSubPipeline b name =
      { b with pipeline := b.pipeline ++ sub, subPipeline := regErase b.subPipeline name } := by
  simp [appendSubPipeline, h]

/-- C7: appendSubPipeline with an existing entry appends its stage list in
stored order to the Main Sequence and deletes the entry; with no entry it is a
silent no-op; and calling it twice with the same name equals calling it once. -/
theorem appendSubPipeline_splice_and_idempotent (b : Builder) (name : String) :
    (regFind? b.subPipeline name = none → appendSubPipeline b name = b) ∧
    (∀ sub, regFind? b.subPipeline name = some sub →
      (appendSubPipeline b name).pipeline = b.pipeline ++ sub ∧
      regFind? (appendSubPipeline b name).subPipeline name = none) ∧
    appendSubPipeline (appendSubPipeline b name) name = appendSubPipeline b name := by
  refine ⟨appendSubPipeline_none_id b name, ?_, ?_⟩
  · intro sub h
    rw [appendSubPipeline_some b name sub h]
    exact ⟨rfl, regFind?_erase_self b.subPipeline name⟩
  · cases hf : regFind? b.subPipeline name with
    | none =>
        rw [appendSubPipeline_none_id b name hf]
        exact appendSubPipeline_none_id b name hf
    | some sub =>
        apply appendSubPipeline_none_id
        rw [appendSubPipeline_some b name sub hf]
        exact regFind?_erase_self b.subPipeline name

/-- Example state for C7: one entry named s holding one stage. -/
def c7Builder : Builder :=
  { pipeline := [], subPipeline := [("s", [Doc.null])], subPipelineCounter := 0 }

/-- C7 witness: splicing the entry s moves its stage to the main pipeline and
removes the entry. -/
theorem appendSubPipeline_splice_and_idempotent_witness :
    (appendSubPipeline c7Builder "s").pipeline = c7Builder.pipeline ++ [Doc.null] ∧
    regFind? (appendSubPipeline c7Builder "s").subPipeline "s" = none :=
  (appendSubPipeline_splice_and_idempotent c7Builder "s").2.1 [Doc.null] rfl

theorem lookup_foldl (m : ModelSchema) (fields : List String) (n? : Option String) :
    ∀ b : Builder,
      lookup m b fields n? =
        (lookupStages m fields).foldl (fun acc s => addToPipeline acc s n?) b := by
  induction fields with
  | nil => intro b; rfl
  | cons field rest ih =>
      intro b
      cases hf : m.refOf field with
      | none =>
          have h1 : lookup m b (field :: rest) n? = lookup m b rest n? := by
            simp [lookup, List.foldl, hf]
          have h2 : lookupStages m (field :: rest) = lookupStages m rest := by
            simp [lookupStages, hf]
          rw [h1, h2, ih]
      | some refName =>
          have h1 : lookup m b (field :: rest) n? =
              lookup m (addToPipeline b (lookupStage (m.collectionNameOf refName) field) n?)
                rest n? := by
            simp [lookup, List.foldl, hf]
          have h2 : lookupStages m (field :: rest) =
              lookupStage (m.collectionNameOf refName) field :: lookupStages m rest := by
            simp [lookupStages, hf]
          rw [h1, ih, h2]
          rfl

/-- C8: lookup emits, for each field in list order, exactly one $lookup stage
when the Relation Resolver declares a relation for the field (the emitted stage
names its output attachment by suffixing the field with Details, per
lookupStage) and nothing otherwise, routing every emitted stage in field order;
with no target name this appends exactly lookupStages to the Main Sequence. -/
theorem lookup_emits_one_stage_per_relation (m : ModelSchema) (b : Builder)
    (fields : List String) (n? : Option String) :
    lookup m b fields n? =
      (lookupStages m fields).foldl (fun acc s => addToPipeline acc s n?) b ∧
    lookup m b fields none = { b with pipeline := b.pipeline ++ lookupStages m fields } :=
  ⟨lookup_foldl m fields n? b, lookup_none m fields b⟩

/-- C9: passing the empty string as the target name routes the stage to the
Main Sequence exactly as if no name had been given (the routing check tests the
name for JS truthiness), no registry entry keyed by the empty string is
created, and every public call behaves identically under the two spellings. -/
theorem emptyName_routes_to_main (m : ModelSchema) (b : Builder) (stage : Doc) (op : Op) :
    addToPipeline b stage (some "") = addToPipeline b stage none ∧
    (addToPipeline b stage (some "")).subPipeline = b.subPipeline ∧
    applyOp m b (Op.withName op (some "")) = applyOp m b (Op.withName op none) := by
  refine ⟨?_, ?_, ?_⟩
  · rw [addToPipeline_emptyName, addToPipeline_none]
  · rw [addToPipeline_emptyName]
  · cases op with
    | matchEqual field value n =>
        simp only [Op.withName, applyOp, matchEqual]
        rw [addToPipeline_emptyName, addToPipeline_none]
    | matchRange field operator value n =>
        simp only [Op.withName, applyOp, matchRange]
        rw [addToPipeline_emptyName, addToPipeline_none]
    | matchLessThan field value n =>
        simp only [Op.withName, applyOp, matchLessThan, matchRange]
        rw [addToPipeline_emptyName, addToPipeline_none]
    | matchGreaterThan field value n =>
        simp only [Op.withName, applyOp, matchGreaterThan, matchRange]
        rw [addToPipeline_emptyName, addToPipeline_none]
    | matchIf c t f n =>
        simp only [Op.withName, applyOp]
        rw [matchIf_emptyName]
    | matchSwitch sf cases n =>
        simp only [Op.withName, applyOp, matchSwitch]
        rw [addToPipeline_emptyName, addToPipeline_none]
    | lookup fields n =>
        simp only [Op.withName, applyOp]
        exact lookup_emptyName m fields b
    | unwind fields n =>
        simp only [Op.withName, applyOp]
        exact unwind_emptyName fields b
    | group g n =>
        simp only [Op.withName, applyOp, group]
        rw [addToPipeline_emptyName, addToPipeline_none]
    | project fs n =>
        simp only [Op.withName, applyOp, project]
        rw [addToPipeline_emptyName, addToPipeline_none]
    | sort s n =>
        simp only [Op.withName, applyOp, sort]
        rw [addToPipeline_emptyName, addToPipeline_none]
    | skip v n =>
        simp only [Op.withName, applyOp, skip]
        rw [addToPipeline_emptyName, addToPipeline_none]
    | limit v n =>
        simp only [Op.withName, applyOp, limit]
        rw [addToPipeline_emptyName, addToPipeline_none]
    | facet fs n =>
        simp only [Op.withName, applyOp, facet]
        rw [addToPipeline_emptyName, addToPipeline_none]
    | appendSubPipeline name => rfl
    | getAndRemoveSubPipeline name => rfl

/-- C10: in every builder state reachable from a fresh builder through public
calls, every name present in the registry maps to a non-empty stage list, and
getAndRemoveSubPipeline never returns an empty list — its result is either
absent or non-empty. -/
theorem registry_entries_nonempty (m : ModelSchema) (ops : List Op) (name : String)
    (l : List Doc)
    (h : (getAndRemoveSubPipeline (runOps m freshBuilder ops) name).1 = some l) :
    l ≠ [] ∧ ∀ p ∈ (runOps m freshBuilder ops).subPipeline, p.2 ≠ [] := by
  have hg : regGood (runOps m freshBuilder ops).subPipeline := by
    apply regGood_runOps
    intro p hp
    simp [freshBuilder] at hp
  constructor
  · rw [getAndRemove_fst] at h
    exact hg (name, l) (regFind?_mem _ name l h)
  · exact hg

/-- C10 witness: after one equality match routed to the name x, retrieving x
returns the non-empty singleton stage list. -/
theorem registry_entries_nonempty_witness :
    [matchEqualStage "a" (Doc.int 1)] ≠ [] ∧
    ∀ p ∈ (runOps (ModelSchema.mk (fun _ => none) (fun s => s)) freshBuilder
      [Op.matchEqual "a" (Doc.int 1) (some "x")]).subPipeline, p.2 ≠ [] :=
  registry_entries_nonempty (ModelSchema.mk (fun _ => none) (fun s => s))
    [Op.matchEqual "a" (Doc.int 1) (some "x")] "x" [matchEqualStage "a" (Doc.int 1)] rfl

end AggQB
